import Mathlib

/-!
# ReSTIR shared definitions (`restir/restir_shared.h`)

A shallow embedding of the resampling core of `restir_shared.h`:

* `shared::Reservoir<SampleType>` with `initialize`, `update`, `getSample`,
  `getSumWeights`, `getStreamLength`, `setStreamLength`;
* the uniform-area branch of `sampleLight` and the hypothetical density of
  `computeSurfacePoint`;
* `testNeighbor`.

## Number model

A finite `float` is an exact rational (`ℚ`): rounding, overflow to infinity and
signed zeros are not modelled, and a float literal stands for its decimal
value.  What IS modelled is the behaviour of division at a zero divisor: the
quotient of two finite floats is a `FloatVal`, which is a finite rational, an
infinity or NaN, with the comparison and multiplication rules of IEEE 754.
`uint32_t` is a natural number reduced modulo `2 ^ 32`; `int` coordinates are
integers.
-/

namespace Restir

/-! ## Floating-point values -/

/-- A float value: a finite rational, an infinity, or NaN. -/
inductive FloatVal where
  | fin (q : ℚ)
  | posInf
  | negInf
  | nan
  deriving DecidableEq, Repr

namespace FloatVal

/-- The value of `a / 0` and of `a * inf` for a finite `a`: NaN when `a` is 0,
else the infinity with the sign of `a`. -/
def infOfSign (a : ℚ) : FloatVal :=
  if a = 0 then nan else if 0 < a then posInf else negInf

/-- The quotient `a / b` of two finite floats: `0 / 0` is NaN and `a / 0` is an
infinity with the sign of `a`. -/
def div (a b : ℚ) : FloatVal :=
  if b = 0 then infOfSign a else fin (a / b)

/-- The comparison `x < y`: false as soon as an operand is NaN. -/
def lt : FloatVal → FloatVal → Bool
  | nan, _ => false
  | _, nan => false
  | fin a, fin b => decide (a < b)
  | fin _, posInf => true
  | fin _, negInf => false
  | posInf, _ => false
  | negInf, fin _ => true
  | negInf, posInf => true
  | negInf, negInf => false

/-- The comparison `x <= y`: false as soon as an operand is NaN. -/
def le : FloatVal → FloatVal → Bool
  | nan, _ => false
  | _, nan => false
  | fin a, fin b => decide (a ≤ b)
  | fin _, posInf => true
  | fin _, negInf => false
  | posInf, posInf => true
  | posInf, _ => false
  | negInf, _ => true

/-- The product `x * y`: NaN as soon as an operand is NaN, and `0 * ±inf` is
NaN. -/
def mul : FloatVal → FloatVal → FloatVal
  | nan, _ => nan
  | _, nan => nan
  | fin a, fin b => fin (a * b)
  | fin a, posInf => infOfSign a
  | fin a, negInf => infOfSign (-a)
  | posInf, fin b => infOfSign b
  | negInf, fin b => infOfSign (-b)
  | posInf, posInf => posInf
  | posInf, negInf => negInf
  | negInf, posInf => negInf
  | negInf, negInf => posInf

/-- The test `isfinite(x)`. -/
def isFinite : FloatVal → Bool
  | fin _ => true
  | _ => false

/-- The length of the set of `u` in `[0, 1)` with `u < x`: the probability
that a uniform `u` in `[0, 1)` passes the test `u < x`. -/
def probBelow : FloatVal → ℚ
  | fin q => max 0 (min q 1)
  | posInf => 1
  | negInf => 0
  | nan => 0

end FloatVal

/-! ## `shared::Reservoir` -/

/-- The class `Reservoir<SampleType>`: the stored sample, the running sum of
weights (`WeightSum = float`) and the stream length (`uint32_t`). -/
structure Reservoir (SampleType : Type) where
  m_sample : SampleType
  m_sumWeights : ℚ
  m_streamLength : ℕ
  deriving Repr

variable {SampleType : Type}

/-- `Reservoir::initialize`: the sum and the length are reset, the sample
member is left as it was. -/
def Reservoir.initialize (r : Reservoir SampleType) : Reservoir SampleType :=
  { r with m_sumWeights := 0, m_streamLength := 0 }

namespace Reservoir

/-- `Reservoir::update`: returns the new state and the flag `accepted`. -/
def update (r : Reservoir SampleType) (newSample : SampleType) (weight u : ℚ) :
    Reservoir SampleType × Bool :=
  let sumWeights := r.m_sumWeights + weight
  let accepted := FloatVal.lt (FloatVal.fin u) (FloatVal.div weight sumWeights)
  ({ m_sample := if accepted then newSample else r.m_sample
     m_sumWeights := sumWeights
     m_streamLength := (r.m_streamLength + 1) % 2 ^ 32 }, accepted)

/-- `Reservoir::getSample`. -/
def getSample (r : Reservoir SampleType) : SampleType := r.m_sample

/-- `Reservoir::getSumWeights`. -/
def getSumWeights (r : Reservoir SampleType) : ℚ := r.m_sumWeights

/-- `Reservoir::getStreamLength`. -/
def getStreamLength (r : Reservoir SampleType) : ℕ := r.m_streamLength

end Reservoir

/-! ## Streams of candidates -/

/-- One call of `update` in a stream: the candidate sample, its resampling
weight, and the random number `u` drawn for the call. -/
structure Candidate (SampleType : Type) where
  sample : SampleType
  weight : ℚ
  u : ℚ
  deriving Repr

/-- The calls `update(c.sample, c.weight, c.u)` for the candidates `c` of `cs`,
in order, starting from the state `r`; the returned flags are dropped. -/
def Reservoir.stream (r : Reservoir SampleType) (cs : List (Candidate SampleType)) :
    Reservoir SampleType :=
  cs.foldl (fun acc c => (acc.update c.sample c.weight c.u).1) r

/-- The weights of a list of candidates. -/
def weights (cs : List (Candidate SampleType)) : List ℚ := cs.map Candidate.weight

/-- The probability that a call `update(_, weight, u)` on a reservoir whose
weight sum is `sumWeights` accepts, for `u` uniform in `[0, 1)`: the length of
the set of `u` in `[0, 1)` that satisfy `u < weight / (sumWeights + weight)`. -/
def acceptProb (sumWeights weight : ℚ) : ℚ :=
  (FloatVal.div weight (sumWeights + weight)).probBelow

/-- The index in `cs` of the candidate whose sample the stream `cs` leaves in
the reservoir `r`: the last call of `update` that accepted, `none` when every
call rejected. -/
def Reservoir.lastAccepted (r : Reservoir SampleType) :
    List (Candidate SampleType) → Option ℕ
  | [] => none
  | c :: cs =>
    match Reservoir.lastAccepted (r.update c.sample c.weight c.u).1 cs with
    | some i => some (i + 1)
    | none => if (r.update c.sample c.weight c.u).2 = true then some 0 else none

/-- The random number of call `j` of the stream `cs` lies below the acceptance
probability of that call, for a reservoir whose weight sum is `sumWeights`
before the stream. -/
def stepAccepts (sumWeights : ℚ) : List (Candidate SampleType) → ℕ → Prop
  | [], _ => False
  | c :: _, 0 => c.u < acceptProb sumWeights c.weight
  | c :: cs, j + 1 => stepAccepts (sumWeights + c.weight) cs j

/-- The predicate `stepAccepts` is decidable. -/
def stepAccepts.decidable :
    (sumWeights : ℚ) → (cs : List (Candidate SampleType)) → (j : ℕ) →
      Decidable (stepAccepts sumWeights cs j)
  | _, [], _ => isFalse (fun h => h)
  | sumWeights, c :: _, 0 =>
    if h : c.u < acceptProb sumWeights c.weight then isTrue h else isFalse h
  | sumWeights, c :: cs, j + 1 => stepAccepts.decidable (sumWeights + c.weight) cs j

instance (sumWeights : ℚ) (cs : List (Candidate SampleType)) (j : ℕ) :
    Decidable (stepAccepts sumWeights cs j) :=
  stepAccepts.decidable sumWeights cs j

/-- The type `Vector3D`: three floats. -/
structure Vector3D where
  x : ℚ
  y : ℚ
  z : ℚ
  deriving DecidableEq, Repr

/-- The type `Point3D`, with the same three components. -/
abbrev Point3D := Vector3D

/-- The type `Normal3D`, with the same three components. -/
abbrev Normal3D := Vector3D

/-- The type `int2`: two `int` coordinates. -/
structure int2 where
  x : ℤ
  y : ℤ
  deriving DecidableEq, Repr

namespace Vector3D

/-- Modelled from the spec: `operator-` of `common_shared.h`, which is not
among the sources; the difference `a - b` of two points or vectors, component
by component. -/
def sub (a b : Vector3D) : Vector3D := ⟨a.x - b.x, a.y - b.y, a.z - b.z⟩

/-- Modelled from the spec: `operator+` of `common_shared.h`, which is not
among the sources; the sum `a + b`, component by component. -/
def add (a b : Vector3D) : Vector3D := ⟨a.x + b.x, a.y + b.y, a.z + b.z⟩

/-- Modelled from the spec: `operator*` of `common_shared.h`, which is not
among the sources; the product `t * a` of a float and a vector. -/
def smul (t : ℚ) (a : Vector3D) : Vector3D := ⟨t * a.x, t * a.y, t * a.z⟩

/-- Modelled from the spec: `cross` of `common_shared.h`, which is not among
the sources; the cross product of two vectors. -/
def cross (a b : Vector3D) : Vector3D :=
  ⟨a.y * b.z - a.z * b.y, a.z * b.x - a.x * b.z, a.x * b.y - a.y * b.x⟩

/-- Modelled from the spec: `sqLength` of `common_shared.h`, which is not among
the sources; the squared length of a vector. -/
def sqLength (a : Vector3D) : ℚ := a.x * a.x + a.y * a.y + a.z * a.z

/-- Modelled from the spec: `length` of `common_shared.h`, which is not among
the sources; the square root of the squared length. -/
def length (sqrtf : ℚ → ℚ) (a : Vector3D) : ℚ := sqrtf (sqLength a)

end Vector3D

/-- A square root on the rationals that is exact on the squares of rationals:
the integer square roots of numerator and denominator.  It stands for
`std::sqrt` where a concrete function is needed. -/
def sqrtQ (x : ℚ) : ℚ := (Nat.sqrt x.num.toNat : ℚ) / (Nat.sqrt x.den : ℚ)

/-! ## Scene data and launch parameters

Only the members that the embedded functions read are kept.  Buffers are
total functions of the index; the discrete distributions of `common_shared.h`
are records of their `sample`, `integral` and `evaluatePMF` functions. -/

/-- A discrete distribution (`LightDistribution` and its kin): `sample(u)`
returns the index, its probability and the remapped random number. -/
structure LightDistribution where
  sample : ℚ → ℕ × ℚ × ℚ
  integral : ℚ
  evaluatePMF : ℕ → ℚ

/-- The struct `shared::Vertex`; the position is what the densities read. -/
structure Vertex where
  position : Point3D

/-- The struct `shared::Triangle`. -/
structure Triangle where
  index0 : ℕ
  index1 : ℕ
  index2 : ℕ

/-- The struct `GeometryInstanceData`. -/
structure GeometryInstanceData where
  vertexBuffer : ℕ → Vertex
  triangleBuffer : ℕ → Triangle
  emitterPrimDist : LightDistribution
  materialSlot : ℕ

/-- The struct `InstanceData`; `transform` is the action of the instance matrix
on a point. -/
structure InstanceData where
  transform : Point3D → Point3D
  uniformScale : ℚ
  lightGeomInstDist : LightDistribution
  geomInstSlots : ℕ → ℕ

/-- The struct `PerspectiveCamera`; the position is what `testNeighbor` reads. -/
structure PerspectiveCamera where
  position : Point3D

/-- The struct `GBuffer0`. -/
structure GBuffer0 where
  positionInWorld : Point3D
  texCoord_x : ℚ

/-- The struct `GBuffer1`. -/
structure GBuffer1 where
  normalInWorld : Normal3D
  texCoord_y : ℚ

/-- The struct `GBuffer2`; the motion vector is not read here. -/
structure GBuffer2 where
  materialSlot : ℕ
  dummy : ℕ

/-- The struct `StaticPipelineLaunchParameters`; `GBufferN i c` is
`GBufferN[i].read(c)` and `envLightTexture` is a handle, 0 when absent. -/
structure StaticPipelineLaunchParameters where
  imageSize : int2
  GBuffer0 : ℕ → int2 → GBuffer0
  GBuffer1 : ℕ → int2 → GBuffer1
  GBuffer2 : ℕ → int2 → GBuffer2
  geometryInstanceDataBuffer : ℕ → GeometryInstanceData
  lightInstDist : LightDistribution
  envLightTexture : ℕ

/-- The struct `PerFramePipelineLaunchParameters`. -/
structure PerFramePipelineLaunchParameters where
  instanceDataBuffer : ℕ → InstanceData
  camera : PerspectiveCamera
  enableEnvLight : Bool

/-- The struct `PipelineLaunchParameters` behind the global `plp`. -/
structure PipelineLaunchParameters where
  s : StaticPipelineLaunchParameters
  f : PerFramePipelineLaunchParameters

/-- The constant `probToSampleEnvLight = 0.25f`. -/
def probToSampleEnvLight : ℚ := 1 / 4

/-! ## `sampleLight<false>`, scene branch -/

/-- What the hierarchical selection of `sampleLight` hands to the point
sampling: the product of the three probabilities and the world-space
vertices `p[0..2]` of the chosen triangle. -/
structure SelectedTriangle where
  lightProb : ℚ
  p0 : Point3D
  p1 : Point3D
  p2 : Point3D
  deriving DecidableEq, Repr

/-- Lines 340-392 of `sampleLight` (`sampleEnvLight` false): the three nested
draws.  `none` is the early return, which writes `*areaPDensity = 0.0f` and
nothing else; it is taken when the instance probability or the geometry
instance probability is zero. -/
def sampleLight.selectTriangle (plp : PipelineLaunchParameters) (ul : ℚ) :
    Option SelectedTriangle :=
  let lightProb : ℚ := 1
  let (instIndex, instProb, uGeomInst) := plp.s.lightInstDist.sample ul
  let lightProb := lightProb * instProb
  let inst := plp.f.instanceDataBuffer instIndex
  if instProb = 0 then none
  else
    let (geomInstIndexInInst, geomInstProb, uPrim) := inst.lightGeomInstDist.sample uGeomInst
    let geomInstIndex := inst.geomInstSlots geomInstIndexInInst
    let lightProb := lightProb * geomInstProb
    let geomInst := plp.s.geometryInstanceDataBuffer geomInstIndex
    if geomInstProb = 0 then none
    else
      let (primIndex, primProb, _) := geomInst.emitterPrimDist.sample uPrim
      let lightProb := lightProb * primProb
      let tri := geomInst.triangleBuffer primIndex
      some
        { lightProb := lightProb
          p0 := inst.transform (geomInst.vertexBuffer tri.index0).position
          p1 := inst.transform (geomInst.vertexBuffer tri.index1).position
          p2 := inst.transform (geomInst.vertexBuffer tri.index2).position }

/-- The outputs of `sampleLight` that are embedded: the area density, and for
a sampled point its barycentric coordinates and its position (`none` on the
early returns, which leave the light sample unwritten).  The normal and the
emittance of the sample are not embedded. -/
structure SampleLightResult where
  areaPDensity : FloatVal
  barycentrics : Option (ℚ × ℚ × ℚ)
  position : Option Point3D
  deriving DecidableEq, Repr

/-- Line 394 and lines 462-477 of `sampleLight<false>`: the geometric normal,
the map from the unit square to the barycentric coordinates, the density
`lightProb * (2.0f / length(geomNormal))` and the position of the sample. -/
def sampleLight.uniformArea (sqrtf : ℚ → ℚ) (p0 p1 p2 : Point3D) (lightProb u0 u1 : ℚ) :
    SampleLightResult :=
  let geomNormal : Normal3D := Vector3D.cross (Vector3D.sub p1 p0) (Vector3D.sub p2 p0)
  let t0 : ℚ := 1 / 2 * u0
  let t1 : ℚ := 1 / 2 * u1
  let offset := t1 - t0
  let t1' := if offset > 0 then t1 + offset else t1
  let t0' := if offset > 0 then t0 else t0 - offset
  let t2 := 1 - (t0' + t1')
  let recArea := FloatVal.div 2 (Vector3D.length sqrtf geomNormal)
  { areaPDensity := FloatVal.mul (FloatVal.fin lightProb) recArea
    barycentrics := some (t0', t1', t2)
    position := some (Vector3D.add (Vector3D.add (Vector3D.smul t0' p0) (Vector3D.smul t1' p1))
      (Vector3D.smul t2 p2)) }

/-- The function `sampleLight<false>` with `sampleEnvLight` false. -/
def sampleLight (sqrtf : ℚ → ℚ) (plp : PipelineLaunchParameters) (ul u0 u1 : ℚ) :
    SampleLightResult :=
  match sampleLight.selectTriangle plp ul with
  | none => { areaPDensity := FloatVal.fin 0, barycentrics := none, position := none }
  | some t => sampleLight.uniformArea sqrtf t.p0 t.p1 t.p2 t.lightProb u0 u1

/-! ## `computeSurfacePoint<true, false>` -/

/-- Lines 612-622 of `computeSurfacePoint`: the hypothetical probability of
selecting the primitive.  `none` is the early return on a non-finite
probability, which writes `*hypAreaPDensity = 0.0f`. -/
def computeSurfacePoint.lightProb (plp : PipelineLaunchParameters) (inst : InstanceData)
    (geomInst : GeometryInstanceData) (primIndex : ℕ) : Option ℚ :=
  let lightProb : ℚ := 1
  let lightProb :=
    if plp.s.envLightTexture ≠ 0 ∧ plp.f.enableEnvLight = true then
      lightProb * (1 - probToSampleEnvLight)
    else lightProb
  let instImportance := inst.lightGeomInstDist.integral
  let lightProb := FloatVal.mul (FloatVal.fin lightProb)
    (FloatVal.div (inst.uniformScale * inst.uniformScale * instImportance)
      plp.s.lightInstDist.integral)
  let lightProb := FloatVal.mul lightProb
    (FloatVal.div geomInst.emitterPrimDist.integral instImportance)
  match lightProb with
  | FloatVal.fin q => some (q * geomInst.emitterPrimDist.evaluatePMF primIndex)
  | _ => none

/-- A distribution over one element, which `sample` returns with probability 1. -/
def exampleDist : LightDistribution :=
  { sample := fun u => (0, 1, u), integral := 1, evaluatePMF := fun _ => 1 }

/-- The geometry instance of the scene: the single triangle. -/
def exampleGeomInst : GeometryInstanceData :=
  { vertexBuffer := fun i =>
      if i = 0 then ⟨⟨0, 0, 0⟩⟩ else if i = 1 then ⟨⟨1, 0, 0⟩⟩ else ⟨⟨0, 1, 0⟩⟩
    triangleBuffer := fun _ => ⟨0, 1, 2⟩
    emitterPrimDist := exampleDist
    materialSlot := 0 }

/-- The instance of the scene, with the identity transform. -/
def exampleInst : InstanceData :=
  { transform := fun p => p, uniformScale := 1, lightGeomInstDist := exampleDist,
    geomInstSlots := fun _ => 0 }

/-- The launch parameters of the scene; the camera is at the origin. -/
def examplePlp : PipelineLaunchParameters :=
  { s :=
      { imageSize := ⟨4, 4⟩
        GBuffer0 := fun _ _ => ⟨⟨0, 0, 0⟩, 0⟩
        GBuffer1 := fun _ _ => ⟨⟨0, 0, 1⟩, 0⟩
        GBuffer2 := fun _ _ => ⟨0, 0⟩
        geometryInstanceDataBuffer := fun _ => exampleGeomInst
        lightInstDist := exampleDist
        envLightTexture := 0 }
    f :=
      { instanceDataBuffer := fun _ => exampleInst
        camera := ⟨⟨0, 0, 0⟩⟩
        enableEnvLight := false } }

/-! ## The three draws of `sampleLight` and the square-to-triangle map -/

/-- The first draw of `sampleLight`, line 346:
`lightInstDist.sample(ul, &instProb, &uGeomInst)`, as (index, probability,
remapped number). -/
def sampleLight.instDraw (plp : PipelineLaunchParameters) (ul : ℚ) : ℕ × ℚ × ℚ :=
  plp.s.lightInstDist.sample ul

/-- The second draw of `sampleLight`, line 361:
`inst.lightGeomInstDist.sample(uGeomInst, &geomInstProb, &uPrim)` for the
instance of the first draw. -/
def sampleLight.geomInstDraw (plp : PipelineLaunchParameters) (ul : ℚ) : ℕ × ℚ × ℚ :=
  (plp.f.instanceDataBuffer (sampleLight.instDraw plp ul).1).lightGeomInstDist.sample
    (sampleLight.instDraw plp ul).2.2

/-- The geometry instance that the second draw selects, lines 362-364. -/
def sampleLight.geomInst (plp : PipelineLaunchParameters) (ul : ℚ) : GeometryInstanceData :=
  plp.s.geometryInstanceDataBuffer
    ((plp.f.instanceDataBuffer (sampleLight.instDraw plp ul).1).geomInstSlots
      (sampleLight.geomInstDraw plp ul).1)

/-- The third draw of `sampleLight`, line 375:
`geomInst.emitterPrimDist.sample(uPrim, &primProb)` for the geometry instance
of the second draw. -/
def sampleLight.primDraw (plp : PipelineLaunchParameters) (ul : ℚ) : ℕ × ℚ × ℚ :=
  (sampleLight.geomInst plp ul).emitterPrimDist.sample (sampleLight.geomInstDraw plp ul).2.2

/-- A geometry instance whose single triangle has the collinear vertices
`(0,0,0)`, `(1,0,0)`, `(2,0,0)`, and whose primitive distribution returns it
with the probability `primProb`. -/
def degenerateGeomInst (primProb : ℚ) : GeometryInstanceData :=
  { vertexBuffer := fun i =>
      if i = 0 then ⟨⟨0, 0, 0⟩⟩ else if i = 1 then ⟨⟨1, 0, 0⟩⟩ else ⟨⟨2, 0, 0⟩⟩
    triangleBuffer := fun _ => ⟨0, 1, 2⟩
    emitterPrimDist :=
      { sample := fun u => (0, primProb, u), integral := primProb,
        evaluatePMF := fun _ => primProb }
    materialSlot := 0 }

/-- The launch parameters of the concrete scene with the zero-area triangle in
place of its triangle. -/
def degeneratePlp (primProb : ℚ) : PipelineLaunchParameters :=
  { s :=
      { imageSize := ⟨4, 4⟩
        GBuffer0 := fun _ _ => ⟨⟨0, 0, 0⟩, 0⟩
        GBuffer1 := fun _ _ => ⟨⟨0, 0, 1⟩, 0⟩
        GBuffer2 := fun _ _ => ⟨0, 0⟩
        geometryInstanceDataBuffer := fun _ => degenerateGeomInst primProb
        lightInstDist := exampleDist
        envLightTexture := 0 }
    f :=
      { instanceDataBuffer := fun _ => exampleInst
        camera := ⟨⟨0, 0, 0⟩⟩
        enableEnvLight := false } }

/-! ## Theorems -/

/-! ### Float comparisons -/

theorem FloatVal.lt_fin_div (u a b : ℚ) :
    FloatVal.lt (FloatVal.fin u) (FloatVal.div a b) = true ↔
      (b ≠ 0 ∧ u < a / b) ∨ (b = 0 ∧ 0 < a) := by
  unfold FloatVal.div FloatVal.infOfSign
  by_cases hb : b = 0
  · by_cases ha : a = 0
    · simp [hb, ha, FloatVal.lt]
    · by_cases hp : 0 < a
      · simp [hb, ha, hp, FloatVal.lt]
      · simp [hb, ha, hp, FloatVal.lt]
  · simp [hb, FloatVal.lt]

theorem FloatVal.le_div_fin (a b c : ℚ) :
    FloatVal.le (FloatVal.div a b) (FloatVal.fin c) = true ↔
      (b ≠ 0 ∧ a / b ≤ c) ∨ (b = 0 ∧ a < 0) := by
  unfold FloatVal.div FloatVal.infOfSign
  by_cases hb : b = 0
  · by_cases ha : a = 0
    · simp [hb, ha, FloatVal.le]
    · by_cases hp : 0 < a
      · simp [hb, ha, hp, FloatVal.le, hp.le]
      · have hn : a < 0 := lt_of_le_of_ne (not_lt.mp hp) ha
        simp [hb, ha, hp, FloatVal.le, hn]
  · simp [hb, FloatVal.le]

theorem FloatVal.probBelow_nonneg (x : FloatVal) : 0 ≤ x.probBelow := by
  cases x <;> simp [FloatVal.probBelow]

theorem FloatVal.probBelow_le_one (x : FloatVal) : x.probBelow ≤ 1 := by
  cases x <;> simp [FloatVal.probBelow]

/-- Within `[0, 1)` the numbers `u` that pass `u < x` are those of the interval
`[0, x.probBelow)`, whose length is `x.probBelow`. -/
theorem FloatVal.lt_fin_iff_probBelow (x : FloatVal) (u : ℚ) (h0 : 0 ≤ u) (h1 : u < 1) :
    FloatVal.lt (FloatVal.fin u) x = true ↔ u < x.probBelow := by
  cases x with
  | fin q =>
    simp only [FloatVal.lt, FloatVal.probBelow, decide_eq_true_eq, lt_max_iff, lt_min_iff]
    constructor
    · intro h; exact Or.inr ⟨h, h1⟩
    · rintro (h | h)
      · exact absurd h (not_lt.mpr h0)
      · exact h.1
  | posInf => simp [FloatVal.lt, FloatVal.probBelow, h1]
  | negInf => simp [FloatVal.lt, FloatVal.probBelow, h0]
  | nan => simp [FloatVal.lt, FloatVal.probBelow, h0]

/-! ### One call of `update` -/

theorem Reservoir.update_accepted (r : Reservoir SampleType) (s : SampleType) (w u : ℚ) :
    (r.update s w u).2 =
      FloatVal.lt (FloatVal.fin u) (FloatVal.div w (r.m_sumWeights + w)) := rfl

theorem Reservoir.update_sumWeights (r : Reservoir SampleType) (s : SampleType) (w u : ℚ) :
    (r.update s w u).1.m_sumWeights = r.m_sumWeights + w := rfl

theorem Reservoir.update_streamLength (r : Reservoir SampleType) (s : SampleType) (w u : ℚ) :
    (r.update s w u).1.m_streamLength = (r.m_streamLength + 1) % 2 ^ 32 := rfl

theorem Reservoir.update_sample (r : Reservoir SampleType) (s : SampleType) (w u : ℚ) :
    (r.update s w u).1.m_sample = if (r.update s w u).2 = true then s else r.m_sample := rfl

/-- For `u` in `[0, 1)` the call accepts exactly when `u` lies below
`acceptProb`, a number of `[0, 1]`. -/
theorem Reservoir.update_accepted_iff_lt_acceptProb (r : Reservoir SampleType)
    (s : SampleType) (w u : ℚ) (h0 : 0 ≤ u) (h1 : u < 1) :
    (r.update s w u).2 = true ↔ u < acceptProb r.m_sumWeights w := by
  rw [Reservoir.update_accepted, acceptProb]
  exact FloatVal.lt_fin_iff_probBelow _ u h0 h1

/-! ### Streams -/

theorem Reservoir.stream_nil (r : Reservoir SampleType) : r.stream [] = r := rfl

theorem Reservoir.stream_cons (r : Reservoir SampleType) (c : Candidate SampleType)
    (cs : List (Candidate SampleType)) :
    r.stream (c :: cs) = (r.update c.sample c.weight c.u).1.stream cs := rfl

theorem Reservoir.stream_append (r : Reservoir SampleType)
    (cs ds : List (Candidate SampleType)) :
    r.stream (cs ++ ds) = (r.stream cs).stream ds := by
  simp [Reservoir.stream, List.foldl_append]

theorem Reservoir.stream_sumWeights (r : Reservoir SampleType)
    (cs : List (Candidate SampleType)) :
    (r.stream cs).m_sumWeights = r.m_sumWeights + (weights cs).sum := by
  induction cs generalizing r with
  | nil => simp [Reservoir.stream_nil, weights]
  | cons c cs ih =>
    rw [Reservoir.stream_cons, ih, Reservoir.update_sumWeights]
    simp [weights, add_assoc]

theorem Reservoir.stream_streamLength (r : Reservoir SampleType)
    (cs : List (Candidate SampleType)) (hr : r.m_streamLength < 2 ^ 32) :
    (r.stream cs).m_streamLength = (r.m_streamLength + cs.length) % 2 ^ 32 := by
  induction cs generalizing r with
  | nil =>
    rw [Reservoir.stream_nil, List.length_nil, Nat.add_zero, Nat.mod_eq_of_lt hr]
  | cons c cs ih =>
    rw [Reservoir.stream_cons, ih _ (by rw [Reservoir.update_streamLength]; exact Nat.mod_lt _ (by norm_num)),
      Reservoir.update_streamLength, List.length_cons]
    omega

theorem Reservoir.lastAccepted_cons_of_some (r : Reservoir SampleType)
    (c : Candidate SampleType) (cs : List (Candidate SampleType)) (i : ℕ)
    (h : Reservoir.lastAccepted (r.update c.sample c.weight c.u).1 cs = some i) :
    r.lastAccepted (c :: cs) = some (i + 1) := by
  rw [Reservoir.lastAccepted, h]

theorem Reservoir.lastAccepted_cons_of_none (r : Reservoir SampleType)
    (c : Candidate SampleType) (cs : List (Candidate SampleType))
    (h : Reservoir.lastAccepted (r.update c.sample c.weight c.u).1 cs = none) :
    r.lastAccepted (c :: cs) =
      if (r.update c.sample c.weight c.u).2 = true then some 0 else none := by
  rw [Reservoir.lastAccepted, h]

theorem Reservoir.lastAccepted_lt_length (r : Reservoir SampleType)
    (cs : List (Candidate SampleType)) (k : ℕ) (hk : r.lastAccepted cs = some k) :
    k < cs.length := by
  induction cs generalizing r k with
  | nil => simp [Reservoir.lastAccepted] at hk
  | cons c cs ih =>
    cases h : Reservoir.lastAccepted (r.update c.sample c.weight c.u).1 cs with
    | some m =>
      rw [Reservoir.lastAccepted_cons_of_some r c cs m h, Option.some.injEq] at hk
      have hm := ih _ m h
      rw [List.length_cons]
      omega
    | none =>
      rw [Reservoir.lastAccepted_cons_of_none r c cs h] at hk
      by_cases ha : (r.update c.sample c.weight c.u).2 = true
      · rw [if_pos ha, Option.some.injEq] at hk
        rw [List.length_cons]
        omega
      · rw [if_neg ha] at hk
        exact Option.noConfusion hk

/-- The sample after a stream is the sample of the last accepted candidate, and
the earlier sample when no call accepted. -/
theorem Reservoir.stream_sample_lastAccepted (r : Reservoir SampleType)
    (cs : List (Candidate SampleType)) :
    (r.stream cs).m_sample =
      match r.lastAccepted cs with
      | some i => (cs.get? i).elim r.m_sample Candidate.sample
      | none => r.m_sample := by
  induction cs generalizing r with
  | nil => rfl
  | cons c cs ih =>
    rw [Reservoir.stream_cons, ih]
    cases h : Reservoir.lastAccepted (r.update c.sample c.weight c.u).1 cs with
    | some i =>
      rw [Reservoir.lastAccepted_cons_of_some r c cs i h]
      have hi := Reservoir.lastAccepted_lt_length _ cs i h
      simp only [List.get?_cons_succ, List.get?_eq_get hi, Option.elim]
    | none =>
      rw [Reservoir.lastAccepted_cons_of_none r c cs h]
      by_cases ha : (r.update c.sample c.weight c.u).2 = true
      · simp [ha, Reservoir.update_sample]
      · simp [ha, Reservoir.update_sample]

theorem Reservoir.lastAccepted_eq_none_iff (r : Reservoir SampleType)
    (cs : List (Candidate SampleType)) (hu : ∀ c ∈ cs, 0 ≤ c.u ∧ c.u < 1) :
    r.lastAccepted cs = none ↔ ∀ j, ¬ stepAccepts r.m_sumWeights cs j := by
  induction cs generalizing r with
  | nil => simp [Reservoir.lastAccepted, stepAccepts]
  | cons c cs ih =>
    have hc := hu c (List.mem_cons_self _ _)
    have hacc := Reservoir.update_accepted_iff_lt_acceptProb r c.sample c.weight c.u hc.1 hc.2
    have ih2 := ih (r.update c.sample c.weight c.u).1 (fun d hd => hu d (List.mem_cons_of_mem _ hd))
    rw [Reservoir.update_sumWeights] at ih2
    cases h : Reservoir.lastAccepted (r.update c.sample c.weight c.u).1 cs with
    | some i =>
      rw [Reservoir.lastAccepted_cons_of_some r c cs i h]
      constructor
      · intro h2
        exact Option.noConfusion h2
      · intro hall
        exfalso
        have h3 : ∀ j, ¬ stepAccepts (r.m_sumWeights + c.weight) cs j := fun j => hall (j + 1)
        rw [ih2.mpr h3] at h
        exact Option.noConfusion h
    | none =>
      rw [Reservoir.lastAccepted_cons_of_none r c cs h]
      have hall := ih2.mp h
      by_cases ha : (r.update c.sample c.weight c.u).2 = true
      · rw [if_pos ha]
        constructor
        · intro h2
          exact Option.noConfusion h2
        · intro hno
          exact absurd (hacc.mp ha) (hno 0)
      · rw [if_neg ha]
        constructor
        · intro _ j
          cases j with
          | zero => exact fun hs => ha (hacc.mpr hs)
          | succ j => exact hall j
        · intro _
          rfl

/-- For random numbers in `[0, 1)`, candidate `i` is the one left in the
reservoir exactly when call `i` accepts and no later call does. -/
theorem Reservoir.lastAccepted_eq_some_iff (r : Reservoir SampleType)
    (cs : List (Candidate SampleType)) (hu : ∀ c ∈ cs, 0 ≤ c.u ∧ c.u < 1) (i : ℕ) :
    r.lastAccepted cs = some i ↔
      stepAccepts r.m_sumWeights cs i ∧ ∀ j, i < j → ¬ stepAccepts r.m_sumWeights cs j := by
  induction cs generalizing r i with
  | nil => simp [Reservoir.lastAccepted, stepAccepts]
  | cons c cs ih =>
    have hc := hu c (List.mem_cons_self _ _)
    have hu2 : ∀ d ∈ cs, 0 ≤ d.u ∧ d.u < 1 := fun d hd => hu d (List.mem_cons_of_mem _ hd)
    have hacc := Reservoir.update_accepted_iff_lt_acceptProb r c.sample c.weight c.u hc.1 hc.2
    have hnone := Reservoir.lastAccepted_eq_none_iff (r.update c.sample c.weight c.u).1 cs hu2
    rw [Reservoir.update_sumWeights] at hnone
    have ih2 := fun k => ih (r.update c.sample c.weight c.u).1 hu2 k
    simp only [Reservoir.update_sumWeights] at ih2
    cases h : Reservoir.lastAccepted (r.update c.sample c.weight c.u).1 cs with
    | some k =>
      rw [Reservoir.lastAccepted_cons_of_some r c cs k h, Option.some.injEq]
      have hk := (ih2 k).mp h
      cases i with
      | zero =>
        constructor
        · intro h2
          exact absurd h2 (Nat.succ_ne_zero k)
        · rintro ⟨_, h2⟩
          exact absurd hk.1 (h2 (k + 1) (Nat.succ_pos k))
      | succ i =>
        constructor
        · intro h2
          have hki : k = i := Nat.succ_injective h2
          rw [← hki]
          refine ⟨hk.1, ?_⟩
          intro j hj
          cases j with
          | zero => exact absurd hj (Nat.not_lt_zero _)
          | succ j => exact hk.2 j (Nat.lt_of_succ_lt_succ hj)
        · rintro ⟨h1, h2⟩
          have h3 : Reservoir.lastAccepted (r.update c.sample c.weight c.u).1 cs = some i :=
            (ih2 i).mpr ⟨h1, fun j hj => h2 (j + 1) (Nat.succ_lt_succ hj)⟩
          rw [h, Option.some.injEq] at h3
          rw [h3]
    | none =>
      rw [Reservoir.lastAccepted_cons_of_none r c cs h]
      have hall := hnone.mp h
      cases i with
      | zero =>
        by_cases ha : (r.update c.sample c.weight c.u).2 = true
        · rw [if_pos ha]
          constructor
          · intro _
            refine ⟨hacc.mp ha, ?_⟩
            intro j hj
            cases j with
            | zero => exact absurd hj (lt_irrefl _)
            | succ j => exact hall j
          · intro _
            rfl
        · rw [if_neg ha]
          constructor
          · intro h2
            exact Option.noConfusion h2
          · rintro ⟨h1, _⟩
            exact absurd (hacc.mpr h1) ha
      | succ i =>
        constructor
        · intro h2
          by_cases ha : (r.update c.sample c.weight c.u).2 = true
          · rw [if_pos ha, Option.some.injEq] at h2
            exact absurd h2.symm (Nat.succ_ne_zero i)
          · rw [if_neg ha] at h2
            exact Option.noConfusion h2
        · rintro ⟨h1, _⟩
          exact absurd h1 (hall i)

/-! ### The contract of `update` and `initialize` -/

/-- C4: `initialize()` sets the weight sum and the stream length to 0 whatever
the state was, and after `initialize()` and `n < 2 ^ 32` calls of `update`
(any weights, any `u`) `getStreamLength()` is `n`. -/
theorem Reservoir.streamLength_after_stream (r : Reservoir SampleType)
    (cs : List (Candidate SampleType)) (hn : cs.length < 2 ^ 32) :
    ( Reservoir.initialize r).getSumWeights = 0 ∧
    ( Reservoir.initialize r).getStreamLength = 0 ∧
    (( Reservoir.initialize r).stream cs).getStreamLength = cs.length := by
  refine ⟨rfl, rfl, ?_⟩
  rw [Reservoir.getStreamLength, Reservoir.stream_streamLength _ _ (by simp [ Reservoir.initialize])]
  simp only [ Reservoir.initialize, Nat.zero_add]
  exact Nat.mod_eq_of_lt hn

/-- Witness of C4: three calls after `initialize()` on a used reservoir. -/
theorem Reservoir.streamLength_after_stream_witness :
    ( Reservoir.initialize (⟨7, 5, 9⟩ : Reservoir ℕ)).getSumWeights = 0 ∧
    ( Reservoir.initialize (⟨7, 5, 9⟩ : Reservoir ℕ)).getStreamLength = 0 ∧
    (( Reservoir.initialize (⟨7, 5, 9⟩ : Reservoir ℕ)).stream
      [⟨1, 2, 1 / 2⟩, ⟨2, 0, 0⟩, ⟨3, 1, 9 / 10⟩]).getStreamLength =
      [(⟨1, 2, 1 / 2⟩ : Candidate ℕ), ⟨2, 0, 0⟩, ⟨3, 1, 9 / 10⟩].length :=
  Reservoir.streamLength_after_stream ⟨7, 5, 9⟩ [⟨1, 2, 1 / 2⟩, ⟨2, 0, 0⟩, ⟨3, 1, 9 / 10⟩]
    (by norm_num)

/-! ### Zero weights -/

/-- C7, as the code has it: for every state (the weight sum may be 0, where the
quotient is `0 / 0`) and every `u >= 0`, `update(sample, 0, u)` returns false,
keeps the stored sample and the weight sum, and adds 1 to the stream length
modulo `2 ^ 32`: by exactly 1 unless the length was `2 ^ 32 - 1`. -/
theorem Reservoir.update_zero_weight (r : Reservoir SampleType) (sample : SampleType)
    (u : ℚ) (hu : 0 ≤ u) :
    (r.update sample 0 u).2 = false ∧
    (r.update sample 0 u).1.getSample = r.getSample ∧
    (r.update sample 0 u).1.getSumWeights = r.getSumWeights ∧
    (r.update sample 0 u).1.getStreamLength = (r.getStreamLength + 1) % 2 ^ 32 ∧
    (r.getStreamLength + 1 < 2 ^ 32 →
      (r.update sample 0 u).1.getStreamLength = r.getStreamLength + 1) := by
  have hacc : (r.update sample 0 u).2 = false := by
    rw [Bool.eq_false_iff, Ne, Reservoir.update_accepted, FloatVal.lt_fin_div]
    rintro (⟨_, h⟩ | ⟨_, h⟩)
    · rw [zero_div] at h
      exact absurd h (not_lt.mpr hu)
    · exact lt_irrefl _ h
  refine ⟨hacc, ?_, ?_, rfl, ?_⟩
  · simp [Reservoir.getSample, Reservoir.update_sample, hacc]
  · simp [Reservoir.getSumWeights, Reservoir.update_sumWeights]
  · intro h
    simp only [Reservoir.getStreamLength, Reservoir.update_streamLength] at h ⊢
    exact Nat.mod_eq_of_lt h

/-- Witness of C7: a zero-weight call with `u = 0` right after `initialize()`,
where the quotient is `0 / 0`. -/
theorem Reservoir.update_zero_weight_witness :
    (( Reservoir.initialize (⟨7, 5, 9⟩ : Reservoir ℕ)).update 1 0 0).2 = false ∧
    (( Reservoir.initialize (⟨7, 5, 9⟩ : Reservoir ℕ)).update 1 0 0).1.getSample =
      ( Reservoir.initialize (⟨7, 5, 9⟩ : Reservoir ℕ)).getSample ∧
    (( Reservoir.initialize (⟨7, 5, 9⟩ : Reservoir ℕ)).update 1 0 0).1.getSumWeights =
      ( Reservoir.initialize (⟨7, 5, 9⟩ : Reservoir ℕ)).getSumWeights ∧
    (( Reservoir.initialize (⟨7, 5, 9⟩ : Reservoir ℕ)).update 1 0 0).1.getStreamLength =
      (( Reservoir.initialize (⟨7, 5, 9⟩ : Reservoir ℕ)).getStreamLength + 1) % 2 ^ 32 ∧
    (( Reservoir.initialize (⟨7, 5, 9⟩ : Reservoir ℕ)).getStreamLength + 1 < 2 ^ 32 →
      (( Reservoir.initialize (⟨7, 5, 9⟩ : Reservoir ℕ)).update 1 0 0).1.getStreamLength =
        ( Reservoir.initialize (⟨7, 5, 9⟩ : Reservoir ℕ)).getStreamLength + 1) :=
  Reservoir.update_zero_weight ( Reservoir.initialize ⟨7, 5, 9⟩) 1 0 (le_refl 0)

/-- C7 fails as stated at the largest stream length: the zero-weight call on a
reservoir of stream length `2 ^ 32 - 1` returns false and leaves stream
length 0, which is not one more than before. -/
theorem Reservoir.update_zero_weight_counterexample :
    ((⟨5, 3, 4294967295⟩ : Reservoir ℕ).update 7 0 (1 / 2)).2 = false ∧
    ((⟨5, 3, 4294967295⟩ : Reservoir ℕ).update 7 0 (1 / 2)).1.getStreamLength = 0 ∧
    ((⟨5, 3, 4294967295⟩ : Reservoir ℕ).update 7 0 (1 / 2)).1.getStreamLength ≠
      (⟨5, 3, 4294967295⟩ : Reservoir ℕ).getStreamLength + 1 := by
  refine ⟨?_, ?_, ?_⟩
  · norm_num [Reservoir.update, FloatVal.div, FloatVal.lt]
  · simp [Reservoir.update, Reservoir.getStreamLength]
  · simp [Reservoir.update, Reservoir.getStreamLength]

/-! ### Merging and stream lengths -/

theorem acceptProb_nonneg (s w : ℚ) : 0 ≤ acceptProb s w :=
  FloatVal.probBelow_nonneg _

theorem acceptProb_le_one (s w : ℚ) : acceptProb s w ≤ 1 :=
  FloatVal.probBelow_le_one _

/-- With non-negative weights and a positive new sum the acceptance probability
is the quotient `w / (s + w)`. -/
theorem acceptProb_of_pos {s w : ℚ} (hs : 0 ≤ s) (hw : 0 ≤ w) (h : 0 < s + w) :
    acceptProb s w = w / (s + w) := by
  have h1 : w / (s + w) ≤ 1 := by
    rw [div_le_one h]
    linarith
  have h0 : 0 ≤ w / (s + w) := div_nonneg hw h.le
  simp [acceptProb, FloatVal.div, h.ne', FloatVal.probBelow, h0, h1]

/-- A zero weight on a zero sum (the quotient `0 / 0`) is never accepted. -/
theorem acceptProb_zero_zero : acceptProb 0 0 = 0 := by
  simp [acceptProb, FloatVal.div, FloatVal.infOfSign, FloatVal.probBelow]

/-- For non-negative numbers the acceptance probability is the quotient
`w / (s + w)`, read as 0 when the sum is 0. -/
theorem acceptProb_of_nonneg {s w : ℚ} (hs : 0 ≤ s) (hw : 0 ≤ w) :
    acceptProb s w = w / (s + w) := by
  rcases (add_nonneg hs hw).eq_or_lt with h | h
  · have hs0 : s = 0 := by linarith
    have hw0 : w = 0 := by linarith
    simp [hs0, hw0, acceptProb_zero_zero]
  · exact acceptProb_of_pos hs hw h

theorem Vector3D.sqLength_pos {v : Vector3D} (hv : v ≠ ⟨0, 0, 0⟩) : 0 < Vector3D.sqLength v := by
  obtain ⟨x, y, z⟩ := v
  simp only [Vector3D.sqLength]
  by_contra h
  have hx : x * x = 0 := by nlinarith [mul_self_nonneg x, mul_self_nonneg y, mul_self_nonneg z]
  have hy : y * y = 0 := by nlinarith [mul_self_nonneg x, mul_self_nonneg y, mul_self_nonneg z]
  have hz : z * z = 0 := by nlinarith [mul_self_nonneg x, mul_self_nonneg y, mul_self_nonneg z]
  apply hv
  rw [mul_self_eq_zero] at hx hy hz
  rw [hx, hy, hz]

theorem Vector3D.length_pos {sqrtf : ℚ → ℚ} (hs : ∀ x, 0 < x → 0 < sqrtf x) {v : Vector3D}
    (hv : v ≠ ⟨0, 0, 0⟩) : 0 < Vector3D.length sqrtf v :=
  hs _ (Vector3D.sqLength_pos hv)

theorem sqrtQ_pos (x : ℚ) (hx : 0 < x) : 0 < sqrtQ x := by
  unfold sqrtQ
  have hnum : 0 < x.num := Rat.num_pos.mpr hx
  have h1 : 0 < Nat.sqrt x.num.toNat := Nat.sqrt_pos.mpr (by omega)
  have h2 : 0 < Nat.sqrt x.den := Nat.sqrt_pos.mpr x.den_pos
  positivity

theorem sampleLight.uniformArea_density_eq (sqrtf : ℚ → ℚ) (p0 p1 p2 : Point3D)
    (lightProb u0 u1 : ℚ)
    (h : Vector3D.length sqrtf (Vector3D.cross (Vector3D.sub p1 p0) (Vector3D.sub p2 p0)) ≠ 0) :
    (sampleLight.uniformArea sqrtf p0 p1 p2 lightProb u0 u1).areaPDensity =
      FloatVal.fin (lightProb * 2 /
        Vector3D.length sqrtf (Vector3D.cross (Vector3D.sub p1 p0) (Vector3D.sub p2 p0))) := by
  simp only [sampleLight.uniformArea, FloatVal.div, if_neg h, FloatVal.mul]
  rw [mul_div_assoc]

/-- C9, as the code has it: in uniform-area mode, for a non-degenerate triangle
with world-space vertices `p0, p1, p2` and selection probability `lightProb`,
the reported area density is `lightProb * 2 / |cross(p1 - p0, p2 - p0)|`, which
is `lightProb / triangleArea` for `triangleArea = |cross(p1 - p0, p2 - p0)| / 2`;
`sampleLight` reports it whenever its selection arrives at this triangle with
this probability. -/
theorem sampleLight_uniformArea_density (sqrtf : ℚ → ℚ) (hs : ∀ x, 0 < x → 0 < sqrtf x)
    (p0 p1 p2 : Point3D)
    (hnd : Vector3D.cross (Vector3D.sub p1 p0) (Vector3D.sub p2 p0) ≠ ⟨0, 0, 0⟩)
    (lightProb u0 u1 : ℚ) :
    (sampleLight.uniformArea sqrtf p0 p1 p2 lightProb u0 u1).areaPDensity =
      FloatVal.fin (lightProb * 2 /
        Vector3D.length sqrtf (Vector3D.cross (Vector3D.sub p1 p0) (Vector3D.sub p2 p0))) ∧
    (sampleLight.uniformArea sqrtf p0 p1 p2 lightProb u0 u1).areaPDensity =
      FloatVal.fin (lightProb /
        (Vector3D.length sqrtf (Vector3D.cross (Vector3D.sub p1 p0) (Vector3D.sub p2 p0)) / 2)) ∧
    (∀ (plp : PipelineLaunchParameters) (ul : ℚ),
      sampleLight.selectTriangle plp ul = some ⟨lightProb, p0, p1, p2⟩ →
      (sampleLight sqrtf plp ul u0 u1).areaPDensity =
        FloatVal.fin (lightProb /
          (Vector3D.length sqrtf
            (Vector3D.cross (Vector3D.sub p1 p0) (Vector3D.sub p2 p0)) / 2))) := by
  have hlen := (Vector3D.length_pos hs hnd).ne'
  have h1 := sampleLight.uniformArea_density_eq sqrtf p0 p1 p2 lightProb u0 u1 hlen
  have h2 : lightProb * 2 /
      Vector3D.length sqrtf (Vector3D.cross (Vector3D.sub p1 p0) (Vector3D.sub p2 p0)) =
      lightProb /
        (Vector3D.length sqrtf (Vector3D.cross (Vector3D.sub p1 p0) (Vector3D.sub p2 p0)) / 2) := by
    field_simp
  refine ⟨h1, by rw [h1, h2], ?_⟩
  intro plp ul hsel
  simp only [sampleLight, hsel]
  rw [h1, h2]

/-- Witness of C9: the triangle `(0,0,0)`, `(1,0,0)`, `(0,1,0)` of area `1/2`,
selected with probability `1/3`. -/
theorem sampleLight_uniformArea_density_witness :
    (sampleLight.uniformArea sqrtQ ⟨0, 0, 0⟩ ⟨1, 0, 0⟩ ⟨0, 1, 0⟩ (1 / 3) (1 / 2) (1 / 4)).areaPDensity =
      FloatVal.fin (2 / 3) := by
  have h := (sampleLight_uniformArea_density sqrtQ sqrtQ_pos ⟨0, 0, 0⟩ ⟨1, 0, 0⟩ ⟨0, 1, 0⟩
    (by simp [Vector3D.cross, Vector3D.sub]) (1 / 3) (1 / 2) (1 / 4)).1
  rw [h]
  norm_num [Vector3D.length, Vector3D.cross, Vector3D.sub, Vector3D.sqLength, sqrtQ]

/-- C9 fails as stated: for the triangle `(0,0,0)`, `(1,0,0)`, `(0,1,0)`, of area
`1/2`, selected with probability 1, `sampleLight` reports the density 2 (one
over the area), which is not `lightProb * 2 / triangleArea = 4`. -/
theorem sampleLight_uniformArea_density_counterexample :
    Vector3D.length sqrtQ
      (Vector3D.cross (Vector3D.sub ⟨1, 0, 0⟩ ⟨0, 0, 0⟩) (Vector3D.sub ⟨0, 1, 0⟩ ⟨0, 0, 0⟩)) / 2 =
      1 / 2 ∧
    sampleLight.selectTriangle examplePlp (1 / 2) = some ⟨1, ⟨0, 0, 0⟩, ⟨1, 0, 0⟩, ⟨0, 1, 0⟩⟩ ∧
    (sampleLight sqrtQ examplePlp (1 / 2) (1 / 2) (1 / 4)).areaPDensity = FloatVal.fin 2 ∧
    (sampleLight sqrtQ examplePlp (1 / 2) (1 / 2) (1 / 4)).areaPDensity ≠
      FloatVal.fin (1 * 2 / (Vector3D.length sqrtQ
        (Vector3D.cross (Vector3D.sub ⟨1, 0, 0⟩ ⟨0, 0, 0⟩)
          (Vector3D.sub ⟨0, 1, 0⟩ ⟨0, 0, 0⟩)) / 2)) := by
  have hlen : Vector3D.length sqrtQ
      (Vector3D.cross (Vector3D.sub ⟨1, 0, 0⟩ ⟨0, 0, 0⟩) (Vector3D.sub ⟨0, 1, 0⟩ ⟨0, 0, 0⟩)) = 1 := by
    norm_num [Vector3D.length, Vector3D.cross, Vector3D.sub, Vector3D.sqLength, sqrtQ]
  have hsel : sampleLight.selectTriangle examplePlp (1 / 2) =
      some ⟨1, ⟨0, 0, 0⟩, ⟨1, 0, 0⟩, ⟨0, 1, 0⟩⟩ := by
    simp [sampleLight.selectTriangle, examplePlp, exampleDist, exampleInst, exampleGeomInst]
  have hden : (sampleLight sqrtQ examplePlp (1 / 2) (1 / 2) (1 / 4)).areaPDensity =
      FloatVal.fin 2 := by
    simp only [sampleLight, hsel, sampleLight.uniformArea, hlen]
    norm_num [FloatVal.div, FloatVal.mul]
  refine ⟨by rw [hlen], hsel, hden, ?_⟩
  rw [hden, hlen]
  norm_num

/-- The selection of `sampleLight` in terms of its three draws. -/
theorem sampleLight.selectTriangle_eq (plp : PipelineLaunchParameters) (ul : ℚ) :
    sampleLight.selectTriangle plp ul =
      if (sampleLight.instDraw plp ul).2.1 = 0 then none
      else if (sampleLight.geomInstDraw plp ul).2.1 = 0 then none
      else some
        { lightProb := 1 * (sampleLight.instDraw plp ul).2.1 *
            (sampleLight.geomInstDraw plp ul).2.1 * (sampleLight.primDraw plp ul).2.1
          p0 := (plp.f.instanceDataBuffer (sampleLight.instDraw plp ul).1).transform
            ((sampleLight.geomInst plp ul).vertexBuffer
              ((sampleLight.geomInst plp ul).triangleBuffer
                (sampleLight.primDraw plp ul).1).index0).position
          p1 := (plp.f.instanceDataBuffer (sampleLight.instDraw plp ul).1).transform
            ((sampleLight.geomInst plp ul).vertexBuffer
              ((sampleLight.geomInst plp ul).triangleBuffer
                (sampleLight.primDraw plp ul).1).index1).position
          p2 := (plp.f.instanceDataBuffer (sampleLight.instDraw plp ul).1).transform
            ((sampleLight.geomInst plp ul).vertexBuffer
              ((sampleLight.geomInst plp ul).triangleBuffer
                (sampleLight.primDraw plp ul).1).index2).position } := by
  rfl

/-- A zero instance probability takes the first early return: density 0. -/
theorem sampleLight_density_of_instProb_zero (sqrtf : ℚ → ℚ) (plp : PipelineLaunchParameters)
    (ul u0 u1 : ℚ) (h : (sampleLight.instDraw plp ul).2.1 = 0) :
    (sampleLight sqrtf plp ul u0 u1).areaPDensity = FloatVal.fin 0 := by
  simp only [sampleLight, sampleLight.selectTriangle_eq, h, if_true]

/-- A zero geometry-instance probability takes the second early return:
density 0. -/
theorem sampleLight_density_of_geomInstProb_zero (sqrtf : ℚ → ℚ)
    (plp : PipelineLaunchParameters) (ul u0 u1 : ℚ)
    (h : (sampleLight.geomInstDraw plp ul).2.1 = 0) :
    (sampleLight sqrtf plp ul u0 u1).areaPDensity = FloatVal.fin 0 := by
  have hsel : sampleLight.selectTriangle plp ul = none := by
    rw [sampleLight.selectTriangle_eq, if_pos h]
    split <;> rfl
  simp only [sampleLight, hsel]

/-- With a zero length of the geometric normal the density is `lightProb * inf`:
an infinity for a non-zero `lightProb`, NaN for `lightProb = 0`. -/
theorem sampleLight.uniformArea_density_of_zero_length (sqrtf : ℚ → ℚ) (p0 p1 p2 : Point3D)
    (lightProb u0 u1 : ℚ)
    (h : Vector3D.length sqrtf (Vector3D.cross (Vector3D.sub p1 p0) (Vector3D.sub p2 p0)) = 0) :
    (sampleLight.uniformArea sqrtf p0 p1 p2 lightProb u0 u1).areaPDensity =
      FloatVal.infOfSign lightProb := by
  simp only [sampleLight.uniformArea, FloatVal.div, h, if_true]
  norm_num [FloatVal.infOfSign, FloatVal.mul]

/-- A zero primitive probability takes no early return: the density is the
product `0 * (2 / length(geomNormal))`, which is 0 for a non-zero length and
NaN for a zero length. -/
theorem sampleLight_density_of_primProb_zero (sqrtf : ℚ → ℚ) (plp : PipelineLaunchParameters)
    (ul u0 u1 : ℚ) (t : SelectedTriangle)
    (hsel : sampleLight.selectTriangle plp ul = some t)
    (h : (sampleLight.primDraw plp ul).2.1 = 0) :
    t.lightProb = 0 ∧
    (Vector3D.length sqrtf (Vector3D.cross (Vector3D.sub t.p1 t.p0) (Vector3D.sub t.p2 t.p0)) ≠ 0 →
      (sampleLight sqrtf plp ul u0 u1).areaPDensity = FloatVal.fin 0) ∧
    (Vector3D.length sqrtf (Vector3D.cross (Vector3D.sub t.p1 t.p0) (Vector3D.sub t.p2 t.p0)) = 0 →
      (sampleLight sqrtf plp ul u0 u1).areaPDensity = FloatVal.nan) := by
  have hl : t.lightProb = 0 := by
    rw [sampleLight.selectTriangle_eq] at hsel
    split at hsel
    · exact Option.noConfusion hsel
    · split at hsel
      · exact Option.noConfusion hsel
      · rw [Option.some.injEq] at hsel
        rw [← hsel, h, mul_zero]
  refine ⟨hl, ?_, ?_⟩
  · intro hlen
    simp only [sampleLight, hsel]
    rw [sampleLight.uniformArea_density_eq sqrtf _ _ _ _ _ _ hlen, hl]
    norm_num
  · intro hlen
    simp only [sampleLight, hsel]
    rw [sampleLight.uniformArea_density_of_zero_length sqrtf _ _ _ _ _ _ hlen, hl]
    simp [FloatVal.infOfSign]

/-- C11 at a failing input: in the scene whose triangle has zero area and
primitive probability 0, the instance and geometry-instance probabilities are
1, the primitive probability is 0, no early return is taken and the area
density that `sampleLight<false>` writes is `0 * (2 / 0)`, which is NaN and
not 0. -/
theorem sampleLight_zero_primProb_density :
    (sampleLight.instDraw (degeneratePlp 0) (1 / 2)).2.1 = 1 ∧
    (sampleLight.geomInstDraw (degeneratePlp 0) (1 / 2)).2.1 = 1 ∧
    (sampleLight.primDraw (degeneratePlp 0) (1 / 2)).2.1 = 0 ∧
    sampleLight.selectTriangle (degeneratePlp 0) (1 / 2) =
      some ⟨0, ⟨0, 0, 0⟩, ⟨1, 0, 0⟩, ⟨2, 0, 0⟩⟩ ∧
    (sampleLight sqrtQ (degeneratePlp 0) (1 / 2) (1 / 2) (1 / 4)).areaPDensity = FloatVal.nan ∧
    (sampleLight sqrtQ (degeneratePlp 0) (1 / 2) (1 / 2) (1 / 4)).areaPDensity ≠
      FloatVal.fin 0 := by
  have hsel : sampleLight.selectTriangle (degeneratePlp 0) (1 / 2) =
      some ⟨0, ⟨0, 0, 0⟩, ⟨1, 0, 0⟩, ⟨2, 0, 0⟩⟩ := by
    simp [sampleLight.selectTriangle, degeneratePlp, exampleDist, exampleInst,
      degenerateGeomInst]
  have hlen : Vector3D.length sqrtQ
      (Vector3D.cross (Vector3D.sub ⟨1, 0, 0⟩ ⟨0, 0, 0⟩) (Vector3D.sub ⟨2, 0, 0⟩ ⟨0, 0, 0⟩)) = 0 := by
    norm_num [Vector3D.length, Vector3D.cross, Vector3D.sub, Vector3D.sqLength, sqrtQ]
  have hden : (sampleLight sqrtQ (degeneratePlp 0) (1 / 2) (1 / 2) (1 / 4)).areaPDensity =
      FloatVal.nan := by
    simp only [sampleLight, hsel, sampleLight.uniformArea, hlen]
    norm_num [FloatVal.div, FloatVal.infOfSign, FloatVal.mul]
  refine ⟨?_, ?_, ?_, hsel, hden, ?_⟩
  · simp [sampleLight.instDraw, degeneratePlp, exampleDist]
  · simp [sampleLight.geomInstDraw, sampleLight.instDraw, degeneratePlp, exampleDist, exampleInst]
  · simp [sampleLight.primDraw, sampleLight.geomInst, sampleLight.geomInstDraw,
      sampleLight.instDraw, degeneratePlp, exampleDist, exampleInst, degenerateGeomInst]
  · rw [hden]
    exact fun h => FloatVal.noConfusion h

/-- C12 at a failing input: in the scene whose triangle has zero area and is
selected with probability 1, the length of the geometric normal is 0 and the
area density that `sampleLight<false>` writes is `1 * (2 / 0)`, which is
`+inf`: not finite and not 0. -/
theorem sampleLight_zero_area_density :
    Vector3D.length sqrtQ
      (Vector3D.cross (Vector3D.sub ⟨1, 0, 0⟩ ⟨0, 0, 0⟩) (Vector3D.sub ⟨2, 0, 0⟩ ⟨0, 0, 0⟩)) = 0 ∧
    sampleLight.selectTriangle (degeneratePlp 1) (1 / 2) =
      some ⟨1, ⟨0, 0, 0⟩, ⟨1, 0, 0⟩, ⟨2, 0, 0⟩⟩ ∧
    (sampleLight sqrtQ (degeneratePlp 1) (1 / 2) (1 / 2) (1 / 4)).areaPDensity =
      FloatVal.posInf ∧
    (sampleLight sqrtQ (degeneratePlp 1) (1 / 2) (1 / 2) (1 / 4)).areaPDensity.isFinite = false ∧
    (sampleLight sqrtQ (degeneratePlp 1) (1 / 2) (1 / 2) (1 / 4)).areaPDensity ≠
      FloatVal.fin 0 := by
  have hsel : sampleLight.selectTriangle (degeneratePlp 1) (1 / 2) =
      some ⟨1, ⟨0, 0, 0⟩, ⟨1, 0, 0⟩, ⟨2, 0, 0⟩⟩ := by
    simp [sampleLight.selectTriangle, degeneratePlp, exampleDist, exampleInst,
      degenerateGeomInst]
  have hlen : Vector3D.length sqrtQ
      (Vector3D.cross (Vector3D.sub ⟨1, 0, 0⟩ ⟨0, 0, 0⟩) (Vector3D.sub ⟨2, 0, 0⟩ ⟨0, 0, 0⟩)) = 0 := by
    norm_num [Vector3D.length, Vector3D.cross, Vector3D.sub, Vector3D.sqLength, sqrtQ]
  have hden : (sampleLight sqrtQ (degeneratePlp 1) (1 / 2) (1 / 2) (1 / 4)).areaPDensity =
      FloatVal.posInf := by
    simp only [sampleLight, hsel, sampleLight.uniformArea, hlen]
    norm_num [FloatVal.div, FloatVal.infOfSign, FloatVal.mul]
  refine ⟨hlen, hsel, hden, ?_, ?_⟩
  · rw [hden]
    rfl
  · rw [hden]
    exact fun h => FloatVal.noConfusion h

/-! ### The square-to-triangle map -/

/-- A call that accepts for a random number `u >= 0` has a positive weight. -/
theorem stepAccepts_weight_pos {s : ℚ} (hs : 0 ≤ s) (cs : List (Candidate SampleType))
    (hw : ∀ c ∈ cs, 0 ≤ c.weight) (hu : ∀ c ∈ cs, 0 ≤ c.u) (j : ℕ)
    (h : stepAccepts s cs j) : ∃ c, cs.get? j = some c ∧ 0 < c.weight := by
  induction cs generalizing s j with
  | nil => exact absurd h (by simp [stepAccepts])
  | cons c cs ih =>
    have hc := hw c (List.mem_cons_self _ _)
    cases j with
    | zero =>
      refine ⟨c, rfl, ?_⟩
      rcases hc.eq_or_lt with h0 | h0
      · exfalso
        simp only [stepAccepts] at h
        rw [acceptProb_of_nonneg hs hc, ← h0, zero_div] at h
        exact absurd h (not_lt.mpr (hu c (List.mem_cons_self _ _)))
      · exact h0
    | succ j =>
      simp only [stepAccepts] at h
      exact ih (add_nonneg hs hc) (fun d hd => hw d (List.mem_cons_of_mem _ hd))
        (fun d hd => hu d (List.mem_cons_of_mem _ hd)) j h

/-- After `initialize()`, a stream with a positive weight has a call that
accepts: the first call with a positive weight. -/
theorem exists_stepAccepts_of_pos (cs : List (Candidate SampleType))
    (hw : ∀ c ∈ cs, 0 ≤ c.weight) (hu : ∀ c ∈ cs, c.u < 1) (hpos : ∃ c ∈ cs, 0 < c.weight) :
    ∃ j, stepAccepts 0 cs j := by
  induction cs with
  | nil =>
    obtain ⟨c, hc, _⟩ := hpos
    simp at hc
  | cons c cs ih =>
    have hc := hw c (List.mem_cons_self _ _)
    rcases hc.eq_or_lt with h0 | h0
    · obtain ⟨d, hd, hdpos⟩ := hpos
      have hd2 : d ∈ cs := by
        rcases List.mem_cons.mp hd with rfl | hd2
        · exact absurd hdpos (by rw [← h0]; exact lt_irrefl _)
        · exact hd2
      obtain ⟨j, hj⟩ := ih (fun e he => hw e (List.mem_cons_of_mem _ he))
        (fun e he => hu e (List.mem_cons_of_mem _ he)) ⟨d, hd2, hdpos⟩
      refine ⟨j + 1, ?_⟩
      simp only [stepAccepts]
      rw [← h0, add_zero]
      exact hj
    · refine ⟨0, ?_⟩
      simp only [stepAccepts]
      rw [acceptProb_of_pos (le_refl 0) hc (by linarith), zero_add, div_self h0.ne']
      exact hu c (List.mem_cons_self _ _)

theorem sum_weights_take_eq_zero (cs : List (Candidate SampleType)) (k : ℕ)
    (h : ∀ j d, j < k → cs.get? j = some d → d.weight = 0) :
    (weights (cs.take k)).sum = 0 := by
  induction cs generalizing k with
  | nil => simp [weights]
  | cons c cs ih =>
    cases k with
    | zero => simp [weights]
    | succ k =>
      have h0 : c.weight = 0 := h 0 c (Nat.succ_pos k) rfl
      have ih2 := ih k (fun j d hj hd => h (j + 1) d (Nat.succ_lt_succ hj) (by simpa using hd))
      simp only [weights, List.take_succ_cons, List.map_cons, List.sum_cons] at ih2 ⊢
      rw [h0, ih2, add_zero]

/-- C14: after `initialize()` and a stream with weights `>= 0`, random numbers in
`[0, 1)` and at least one positive weight, the call of the first candidate
with a positive weight returns true (its quotient `weight / newSum` is 1), a
call with weight 0 returns false in every state, and the stored sample is the
sample of one of the supplied candidates with a positive weight: the sample
that the reservoir held before `initialize()` is not what `getSample()`
returns. -/
theorem Reservoir.stream_sample_positive_weight (r : Reservoir SampleType)
    (cs : List (Candidate SampleType)) (hw : ∀ c ∈ cs, 0 ≤ c.weight)
    (hu : ∀ c ∈ cs, 0 ≤ c.u ∧ c.u < 1) (hpos : ∃ c ∈ cs, 0 < c.weight) :
    (∀ k c, cs.get? k = some c → 0 < c.weight →
      (∀ j d, j < k → cs.get? j = some d → d.weight = 0) →
      ((( Reservoir.initialize r).stream (cs.take k)).update c.sample c.weight c.u).2 = true) ∧
    (∀ (q : Reservoir SampleType) (c : Candidate SampleType), c ∈ cs → c.weight = 0 →
      (q.update c.sample c.weight c.u).2 = false) ∧
    (∃ i c, cs.get? i = some c ∧ 0 < c.weight ∧
      ( Reservoir.initialize r).lastAccepted cs = some i ∧
      (( Reservoir.initialize r).stream cs).getSample = c.sample) := by
  refine ⟨?_, ?_, ?_⟩
  · intro k c hk hc hzero
    have hmem : c ∈ cs := List.get?_mem hk
    rw [Reservoir.update_accepted, Reservoir.stream_sumWeights,
      sum_weights_take_eq_zero cs k hzero, FloatVal.lt_fin_div]
    simp only [ Reservoir.initialize, add_zero, zero_add]
    exact Or.inl ⟨hc.ne', by rw [div_self hc.ne']; exact (hu c hmem).2⟩
  · intro q c hmem hc
    rw [Bool.eq_false_iff, Ne, Reservoir.update_accepted, FloatVal.lt_fin_div, hc]
    rintro (⟨_, h⟩ | ⟨_, h⟩)
    · rw [zero_div] at h
      exact absurd h (not_lt.mpr (hu c hmem).1)
    · exact lt_irrefl _ h
  · obtain ⟨j, hj⟩ := exists_stepAccepts_of_pos cs hw (fun c hc => (hu c hc).2) hpos
    have hne : ( Reservoir.initialize r).lastAccepted cs ≠ none := by
      intro hnone
      exact (Reservoir.lastAccepted_eq_none_iff _ cs hu).mp hnone j hj
    obtain ⟨i, hi⟩ := Option.ne_none_iff_exists'.mp hne
    have hstep := ((Reservoir.lastAccepted_eq_some_iff _ cs hu i).mp hi).1
    obtain ⟨c, hc, hcpos⟩ := stepAccepts_weight_pos (le_refl 0) cs hw
      (fun c hc => (hu c hc).1) i hstep
    refine ⟨i, c, hc, hcpos, hi, ?_⟩
    rw [Reservoir.getSample, Reservoir.stream_sample_lastAccepted, hi]
    simp only [hc, Option.elim]

/-- Witness of C14: a used reservoir is initialized and fed the weights 0, 3,
0, 1. -/
theorem Reservoir.stream_sample_positive_weight_witness :
    ∃ i c, [(⟨1, 0, 1 / 2⟩ : Candidate ℕ), ⟨2, 3, 9 / 10⟩, ⟨3, 0, 0⟩, ⟨4, 1, 1 / 2⟩].get? i =
        some c ∧ 0 < c.weight ∧
      ( Reservoir.initialize (⟨99, 5, 9⟩ : Reservoir ℕ)).lastAccepted
        [⟨1, 0, 1 / 2⟩, ⟨2, 3, 9 / 10⟩, ⟨3, 0, 0⟩, ⟨4, 1, 1 / 2⟩] = some i ∧
      (( Reservoir.initialize (⟨99, 5, 9⟩ : Reservoir ℕ)).stream
        [⟨1, 0, 1 / 2⟩, ⟨2, 3, 9 / 10⟩, ⟨3, 0, 0⟩, ⟨4, 1, 1 / 2⟩]).getSample = c.sample :=
  (Reservoir.stream_sample_positive_weight (⟨99, 5, 9⟩ : Reservoir ℕ)
    [⟨1, 0, 1 / 2⟩, ⟨2, 3, 9 / 10⟩, ⟨3, 0, 0⟩, ⟨4, 1, 1 / 2⟩]
    (by intro c hc; simp at hc; rcases hc with rfl | rfl | rfl | rfl <;> norm_num)
    (by intro c hc; simp at hc; rcases hc with rfl | rfl | rfl | rfl <;> norm_num)
    ⟨⟨2, 3, 9 / 10⟩, by simp, by norm_num⟩).2.2

end Restir
